import Mathlib

/-!
Shallow embedding of the data-transformation dashboard
(frontend React/TypeScript client plus the transformation engine it calls).

The client-side logic (sorting, filtering, column derivation, request
assembly) is embedded from `frontend/src` verbatim.  The backend engine
(aggregate / filter / normalize / pivot and their dispatcher) is not part of
the source tree; those definitions are modelled from the specification and
are marked as such in their doc comments.
-/

namespace Dashboard

attribute [local semireducible] Rat.add Rat.mul Rat.inv Rat.sub Rat.ofScientific

/-- Scalar values carried in a record: a JSON-style value as used by the
frontend (`number | string | boolean | null`).  Numbers are modelled as
rationals; JavaScript `NaN` / `Infinity` never occur in the data handled by
the dashboard and are outside the model. -/
inductive Value where
  | num : Rat → Value
  | str : String → Value
  | bool : Bool → Value
  | null : Value
deriving DecidableEq

/-- A record is an ordered mapping from column names to scalar values
(`DataRecord` in `types/index.ts`, a JS object). -/
abbrev Record := List (String × Value)

/-- Property access `r[c]` on a JS object: the first binding of the key, or
`none` when the key is absent (JS `undefined`). -/
def lookupField : Record → String → Option Value
  | [], _ => none
  | (k, v) :: rest, c => if k = c then some v else lookupField rest c

/-- Backend view of a field: a record missing the column yields null
(spec section 3: absence is treated as null). -/
def getVal (r : Record) (c : String) : Value :=
  (lookupField r c).getD .null

/-- Numeric view of a value: `some` exactly on numbers. -/
def toNum : Value → Option Rat
  | .num q => some q
  | _ => none

/-- Model of JavaScript `String(v)`.  Integral numbers render as decimal
integers as in JS; non-integral numbers are rendered as `num/den`, an
approximation of JS decimal float rendering (no claim depends on the exact
text of a non-integral number). -/
def jsString : Value → String
  | .num q => if q.den = 1 then toString q.num else toString q.num ++ "/" ++ toString q.den
  | .str s => s
  | .bool b => if b then "true" else "false"
  | .null => "null"

/-- Model of JavaScript `String(v)` applied to a possibly-undefined property
access: `String(undefined)` is the text `"undefined"`. -/
def jsStringU : Option Value → String
  | none => "undefined"
  | some v => jsString v

/-- Model of JavaScript `s.toLowerCase()`: lowercase every character.
Lean's `Char.toLower` lowers the ASCII range, which covers every string the
dashboard handles; full Unicode case mapping is outside the model. -/
def toLowerStr (s : String) : String :=
  ⟨s.data.map Char.toLower⟩

/-- Does the character list `hay` begin with `needle`? -/
def startsWithL : List Char → List Char → Bool
  | [], _ => true
  | _ :: _, [] => false
  | a :: as, b :: bs => a == b && startsWithL as bs

/-- Does the character list contain `needle` as a contiguous run? -/
def includesL (needle : List Char) : List Char → Bool
  | [] => startsWithL needle []
  | h :: t => startsWithL needle (h :: t) || includesL needle t

/-- Model of JavaScript `hay.includes(needle)` on strings. -/
def strIncludes (hay needle : String) : Bool :=
  includesL needle.toList hay.toList

/-- Numeric value of a digit string, most significant first. -/
def digitsVal (cs : List Char) : Nat :=
  cs.foldl (fun a c => 10 * a + (c.toNat - 48)) 0

/-- Model of JavaScript `parseFloat`: skip leading whitespace, optional sign,
decimal digits with optional fraction and exponent, reading the longest valid
numeric front of the string and ignoring trailing text.  `none` stands for
`NaN` (no numeric front at all); JS `Infinity` literals are outside the
model. -/
def parseFloat (s : String) : Option Rat :=
  let cs0 := s.toList.dropWhile (fun c => c.isWhitespace)
  let sgn : Rat := if cs0.head? == some '-' then -1 else 1
  let cs1 := if cs0.head? == some '-' || cs0.head? == some '+' then cs0.drop 1 else cs0
  let intDigits := cs1.takeWhile Char.isDigit
  let cs2 := cs1.drop intDigits.length
  let hasDot : Bool := cs2.head? == some '.'
  let fracDigits := if hasDot then (cs2.drop 1).takeWhile Char.isDigit else []
  let cs3 := if hasDot then (cs2.drop 1).drop fracDigits.length else cs2
  if intDigits.isEmpty && fracDigits.isEmpty then none
  else
    let mantissa : Rat :=
      (digitsVal intDigits : Rat) + (digitsVal fracDigits : Rat) / ((10 : Rat) ^ fracDigits.length)
    let hasExpMark : Bool := cs3.head? == some 'e' || cs3.head? == some 'E'
    let cs4 := cs3.drop 1
    let expNegSign : Bool := cs4.head? == some '-'
    let cs5 := if cs4.head? == some '-' || cs4.head? == some '+' then cs4.drop 1 else cs4
    let expDigits := if hasExpMark then cs5.takeWhile Char.isDigit else []
    let expo : Int :=
      if expDigits.isEmpty then 0
      else if expNegSign then -(digitsVal expDigits : Int) else (digitsVal expDigits : Int)
    some (sgn * mantissa * (10 : Rat) ^ expo)

/-! ## Client-side dashboard state logic (`hooks/useDashboard`) -/

/-- Sort direction of the client table header (`SortConfig["direction"]`). -/
inductive SortDir where
  | asc
  | desc
deriving DecidableEq

/-- Client sort configuration (`SortConfig` in `types/index.ts`). -/
structure SortConfig where
  key : String
  direction : SortDir
deriving DecidableEq

/-- Model of `a.localeCompare(b)` as a signed number: lexicographic string
comparison (locale-specific collation is outside the model; no claim depends
on the resulting order, only on the sort being a permutation). -/
def localeCompareQ (a b : String) : Rat :=
  match compare a b with
  | .lt => -1
  | .eq => 0
  | .gt => 1

/-- The comparator passed to `Array.prototype.sort` in `sortedData`
(`useDashboard.ts`): numbers by difference, strings by `localeCompare`,
anything else by `localeCompare` of the `String(...)` renderings, each
reversed for descending order. -/
def jsSortComparator (key : String) (direction : SortDir) (a b : Record) : Rat :=
  let aVal := lookupField a key
  let bVal := lookupField b key
  match aVal, bVal with
  | some (.num x), some (.num y) =>
      match direction with
      | .asc => x - y
      | .desc => y - x
  | some (.str s), some (.str t) =>
      match direction with
      | .asc => localeCompareQ s t
      | .desc => localeCompareQ t s
  | _, _ =>
      let aStr := jsStringU aVal
      let bStr := jsStringU bVal
      match direction with
      | .asc => localeCompareQ aStr bStr
      | .desc => localeCompareQ bStr aStr

/-- Client-side sorted view (`sortedData` in `useDashboard.ts`): the
transformed data unchanged when no sort is configured, otherwise a copy
sorted with `jsSortComparator`.  The engine-level sort of the JS runtime is
modelled by merge sort driven by the comparator (the claim settled about it
concerns only the multiset of rows, which is the same for any comparison
sort). -/
def sortedData (transformedData : List Record) (sortConfig : Option SortConfig) : List Record :=
  match sortConfig with
  | none => transformedData
  | some cfg =>
      transformedData.mergeSort (fun a b => jsSortComparator cfg.key cfg.direction a b ≤ 0)

/-- Client filter operators (`FilterConfig["operator"]` in `types/index.ts`). -/
inductive FilterOp where
  | contains
  | equals
  | greater
  | less
deriving DecidableEq

/-- A client-side filter row (`FilterConfig` in `types/index.ts`); the value
is always the raw text of the filter input. -/
structure FilterConfig where
  column : String
  value : String
  operator : FilterOp
deriving DecidableEq

/-- One filter applied to one record, as written inside
`filteredAndSortedData` (`useDashboard.ts`): `value` is the record's field
(possibly `undefined`), `filterValue` the lowercased filter text; `contains`
and `equals` compare lowercased `String(...)` renderings, `greater` / `less`
require the field to be a number and compare it with `parseFloat` of the
filter text. -/
def matchesFilter (record : Record) (filter : FilterConfig) : Bool :=
  let value := lookupField record filter.column
  let filterValue := toLowerStr filter.value
  match filter.operator with
  | .contains => strIncludes (toLowerStr (jsStringU value)) filterValue
  | .equals => toLowerStr (jsStringU value) == filterValue
  | .greater =>
      match value, parseFloat filter.value with
      | some (.num x), some q => decide (x > q)
      | _, _ => false
  | .less =>
      match value, parseFloat filter.value with
      | some (.num x), some q => decide (x < q)
      | _, _ => false

/-- Client-side filtered view (`filteredAndSortedData` in `useDashboard.ts`):
the sorted data unchanged when no filters are active, otherwise the records
for which every active filter matches (`filters.every`). -/
def filteredAndSortedData (sorted : List Record) (filters : List FilterConfig) : List Record :=
  if filters.isEmpty then sorted
  else sorted.filter (fun record => filters.all (fun filter => matchesFilter record filter))

/-- Column list offered for filtering and sorting (`availableColumns` in
`useDashboard.ts`): `Object.keys` of the first record of the transformed
data, empty for an empty table. -/
def availableColumns (transformedData : List Record) : List String :=
  match transformedData with
  | [] => []
  | r :: _ => r.map (fun p => p.1)

/-- Whether the value stored under a key of a record is a number
(`typeof firstRecord[key] === "number"`). -/
def isNumField (r : Record) (k : String) : Bool :=
  match lookupField r k with
  | some (.num _) => true
  | _ => false

/-- Columns offered for normalization (`numericColumns` in
`useDashboard.ts`): the keys of the first record of the original data whose
value in that first record is a number. -/
def numericColumns (originalData : List Record) : List String :=
  match originalData with
  | [] => []
  | r :: _ => (r.map (fun p => p.1)).filter (fun k => isNumField r k)

/-- Stated from the spec for comparison with the code: the `contains` filter
as the spec words it — a case-sensitive substring test of the string
representation of the condition value against the string representation of
the field value. -/
def specCaseSensitiveContains (record : Record) (filter : FilterConfig) : Bool :=
  strIncludes (jsStringU (lookupField record filter.column)) filter.value

/-- Stated from the spec for comparison with the code: the derived schema of
a table as the set of column names appearing anywhere in it, in first-seen
order (spec section 3, Schema). -/
def specSchemaColumns (t : List Record) : List String :=
  t.foldl (fun acc r => acc ++ ((r.map (fun p => p.1)).filter (fun k => !acc.contains k))) []

/-! ## Request assembly in `App.handleExecuteTransformation` (`App.tsx`) -/

/-- JavaScript truthiness of a scalar value (`if (apiParameters.pivot_columns)`):
zero, the empty string, `false` and `null` are falsy. -/
def truthy : Value → Bool
  | .num q => q ≠ 0
  | .str s => s ≠ ""
  | .bool b => b
  | .null => false

/-- Model of `delete o[k]` on a JS object: the key is removed.  A JS object
never holds a key twice, so removing every binding of the key is
lookup-equivalent. -/
def jsDelete (k : String) (o : Record) : Record :=
  o.filter (fun p => p.1 ≠ k)

/-- Model of `o[k] = v` on a JS object, up to lookup: the binding for `k`
becomes `v` (insertion order of the object's keys is not relied on by any
claim). -/
def jsSet (k : String) (v : Value) (o : Record) : Record :=
  (k, v) :: jsDelete k o

/-- The parameter object `App.handleExecuteTransformation` posts to the API:
a copy of the dashboard parameters in which, when `pivot_columns` holds a
truthy value, that value is re-keyed to `columns` and `pivot_columns` is
deleted. -/
def apiParameters (parameters : Record) : Record :=
  match lookupField parameters "pivot_columns" with
  | some v => if truthy v then jsDelete "pivot_columns" (jsSet "columns" v parameters) else parameters
  | none => parameters

/-! ## Spec-modelled transformation engine

The backend engine (Django `pandas` pipeline) is not part of the source
tree; only its callers, documentation and container configuration are.  The
definitions below are modelled from the specification, faithful to its
wording, and each doc comment says so. -/

/-- Modelled from the spec: the engine's condition operators
(spec section 3, Condition). -/
inductive CondOp where
  | eq
  | ne
  | gt
  | gte
  | lt
  | lte
  | contains
  | isIn
deriving DecidableEq

/-- Modelled from the spec: a condition's comparison value is a scalar or a
sequence (spec section 3, Condition). -/
inductive CondVal where
  | scalar : Value → CondVal
  | seq : List Value → CondVal
deriving DecidableEq

/-- Modelled from the spec: a single filter condition
(spec section 3, Condition). -/
structure Condition where
  field : String
  op : CondOp
  value : CondVal
deriving DecidableEq

/-- Numeric view of a condition's comparison value: `some` exactly when the
value is a numeric scalar. -/
def condNum : CondVal → Option Rat
  | .scalar (.num q) => some q
  | _ => none

/-- Modelled from the spec: equality used by `eq` / `ne` — strict equality
when both sides have the same type, otherwise a fall back to comparing
string renderings (spec section 4.1; the exact coercion rule beyond the
string fallback is not spelled out there and no claim depends on it). -/
def specValueEq (a b : Value) : Bool :=
  match a, b with
  | .num x, .num y => x == y
  | .str s, .str t => s == t
  | .bool x, .bool y => x == y
  | .null, .null => true
  | _, _ => jsString a == jsString b

/-- Modelled from the spec: `matches(record, condition)`
(spec section 4.1).  A record missing the field contributes null; ordering
operators are numeric and evaluate false when either side is non-numeric;
`contains` is a case-sensitive substring test on string renderings; `in`
tests membership of the field value in the condition's sequence. -/
def specMatches (r : Record) (c : Condition) : Bool :=
  let fv := getVal r c.field
  match c.op with
  | .eq =>
      match c.value with
      | .scalar v => specValueEq fv v
      | .seq _ => false
  | .ne =>
      match c.value with
      | .scalar v => !specValueEq fv v
      | .seq _ => true
  | .gt =>
      match toNum fv, condNum c.value with
      | some x, some y => decide (x > y)
      | _, _ => false
  | .gte =>
      match toNum fv, condNum c.value with
      | some x, some y => decide (x ≥ y)
      | _, _ => false
  | .lt =>
      match toNum fv, condNum c.value with
      | some x, some y => decide (x < y)
      | _, _ => false
  | .lte =>
      match toNum fv, condNum c.value with
      | some x, some y => decide (x ≤ y)
      | _, _ => false
  | .contains =>
      match c.value with
      | .scalar v => strIncludes (jsString fv) (jsString v)
      | .seq _ => false
  | .isIn =>
      match c.value with
      | .scalar _ => false
      | .seq vs => vs.contains fv

/-- Modelled from the spec: the AND composition of a condition list
(spec section 4.1). -/
def specMatchesAll (r : Record) (cs : List Condition) : Bool :=
  cs.all (fun c => specMatches r c)

/-- Modelled from the spec: the filter transformation — keep exactly the
records for which the composed predicate holds, preserving input order
(spec section 4.1). -/
def specFilterTable (t : List Record) (cs : List Condition) : List Record :=
  t.filter (fun r => specMatchesAll r cs)

/-- Modelled from the spec: the named statistics of the Aggregator
(spec section 4.2 and the `aggregations` parameter in `types/index.ts`). -/
inductive Stat where
  | sum
  | mean
  | count
  | min
  | max
  | std
deriving DecidableEq

/-- Smallest element of a rational list, `none` on the empty list. -/
def listMinQ : List Rat → Option Rat
  | [] => none
  | x :: xs => some (xs.foldl (fun a b => if b < a then b else a) x)

/-- Largest element of a rational list, `none` on the empty list. -/
def listMaxQ : List Rat → Option Rat
  | [] => none
  | x :: xs => some (xs.foldl (fun a b => if a < b then b else a) x)

/-- Arithmetic mean, `none` on the empty list. -/
def meanQ (xs : List Rat) : Option Rat :=
  if xs.isEmpty then none else some (xs.sum / (xs.length : Rat))

/-- Sum of squared deviations from the mean. -/
def sqDevSum (xs : List Rat) : Rat :=
  let m := xs.sum / (xs.length : Rat)
  (xs.map (fun x => (x - m) * (x - m))).sum

/-- Modelled from the spec: the numeric reduction of one statistic over the
non-null numeric values of a column (spec section 4.2); `none` is the null
result.  The spec's `std` is the sample standard deviation (divide by
`n - 1`, null below 2 values); its square root is irrational in general and
outside this rational value model, so `std` here carries the sample
variance — no claim depends on the numeric value of `std`, only on its
null behaviour, which is faithful. -/
def applyNumStat : Stat → List Rat → Option Rat
  | .sum, xs => some xs.sum
  | .mean, xs => meanQ xs
  | .count, xs => some (xs.length : Rat)
  | .min, xs => listMinQ xs
  | .max, xs => listMaxQ xs
  | .std, xs => if xs.length < 2 then none else some (sqDevSum xs / ((xs.length : Rat) - 1))

/-- Non-null numeric values of a column across a record list, in input
order. -/
def numsAt (t : List Record) (c : String) : List Rat :=
  t.filterMap (fun r => toNum (getVal r c))

/-- Modelled from the spec: one aggregated output cell (spec section 4.2).
`count` counts the non-null values of the column in the bucket; the numeric
statistics reduce the bucket's non-null numeric values, yielding null when
the reduction has no value. -/
def aggCell (bucket : List Record) (c : String) (s : Stat) : Value :=
  match s with
  | .count => .num ((bucket.filter (fun r => getVal r c ≠ .null)).length : Rat)
  | _ =>
      match applyNumStat s (numsAt bucket c) with
      | some q => .num q
      | none => .null

/-- Modelled from the spec: the group key of a record — the tuple of its
`group_by` values, a missing column contributing null (spec section 4.2). -/
def keyTuple (gb : List String) (r : Record) : List Value :=
  gb.map (fun c => getVal r c)

/-- Modelled from the spec: the distinct group-key tuples in first-seen
order while scanning the input top to bottom (spec section 4.2). -/
def firstSeenKeys (gb : List String) (t : List Record) : List (List Value) :=
  t.foldl (fun acc r => if keyTuple gb r ∈ acc then acc else acc ++ [keyTuple gb r]) []

/-- Modelled from the spec: errors of the engine (spec section 7). -/
inductive EngineError where
  | validation : String → EngineError
  | computation : String → EngineError
deriving DecidableEq

/-- Modelled from the spec: `aggregate(table, group_by, aggregations)`
(spec section 4.2).  Fails when `group_by` is empty or a referenced
aggregation column exists in no record; otherwise emits, per distinct
group-key tuple in first-seen order, the `group_by` columns followed by one
column per aggregation pair, reusing the source column's name. -/
def aggregate (t : List Record) (gb : List String)
    (aggs : List (String × Stat)) : Except EngineError (List Record) :=
  if gb.isEmpty then .error (.validation "group_by must not be empty")
  else if aggs.any (fun p => !(specSchemaColumns t).contains p.1) then
    .error (.validation "aggregation column not found")
  else
    .ok ((firstSeenKeys gb t).map (fun key =>
      let bucket := t.filter (fun r => keyTuple gb r == key)
      gb.zip key ++ aggs.map (fun p => (p.1, aggCell bucket p.1 p.2))))

/-- Modelled from the spec: the Normalizer's methods (spec section 4.3 and
the `method` parameter in `types/index.ts`). -/
inductive NormMethod where
  | min_max
  | z_score
  | robust
deriving DecidableEq

/-- Insert into a sorted rational list, keeping it sorted. -/
def insertSortedQ (x : Rat) : List Rat → List Rat
  | [] => [x]
  | y :: ys => if x ≤ y then x :: y :: ys else y :: insertSortedQ x ys

/-- Ascending insertion sort of a rational list. -/
def sortQ (xs : List Rat) : List Rat :=
  xs.foldr insertSortedQ []

/-- Median of a sorted nonempty list: middle element, or the mean of the two
middle elements for even length. -/
def medianSorted (xs : List Rat) : Rat :=
  let n := xs.length
  if n % 2 = 1 then xs.getD (n / 2) 0
  else (xs.getD (n / 2 - 1) 0 + xs.getD (n / 2) 0) / 2

/-- Modelled from the spec: the per-value rescaling function of a column
given the column's non-null numeric values (spec section 4.3).  Every
method maps every value to 0 when its scale factor is zero.  For `z_score`
the spec divides by the population standard deviation, whose square root is
irrational in general and outside this rational model; the divisor here is
the population variance, which is zero exactly when the standard deviation
is, so the zero-scale branch is faithful — no claim depends on non-zero
`z_score` outputs.  Quartiles for `robust` are the medians of the lower and
upper halves of the sorted values (the spec does not fix an interpolation
rule; no claim depends on it). -/
def scaler (m : NormMethod) (xs : List Rat) : Rat → Rat :=
  match m with
  | .min_max =>
      let mn := (listMinQ xs).getD 0
      let mx := (listMaxQ xs).getD 0
      fun x => if mx = mn then 0 else (x - mn) / (mx - mn)
  | .z_score =>
      let mu := xs.sum / (xs.length : Rat)
      let popVar := sqDevSum xs / (xs.length : Rat)
      fun x => if popVar = 0 then 0 else (x - mu) / popVar
  | .robust =>
      let sorted := sortQ xs
      let med := medianSorted sorted
      let lower := sorted.take (sorted.length / 2)
      let upper := sorted.drop ((sorted.length + 1) / 2)
      let iqr := medianSorted upper - medianSorted lower
      fun x => if iqr = 0 then 0 else (x - med) / iqr

/-- Apply a rational function to a numeric value, passing every other value
through unchanged. -/
def mapNum (f : Rat → Rat) : Value → Value
  | .num x => .num (f x)
  | v => v

/-- Rescale the entries of one record that sit under the given column,
leaving every key and every other entry unchanged. -/
def scaleRecordCol (c : String) (f : Rat → Rat) : Record → Record
  | [] => []
  | (k, v) :: rest => (k, if k = c then mapNum f v else v) :: scaleRecordCol c f rest

/-- Modelled from the spec: normalize a single column (spec section 4.3).
The statistics are computed once over the column's non-null numeric values
before any value is rewritten; null and non-numeric entries pass through;
the call fails when the column exists in no record or holds no numeric
value at all. -/
def normalizeCol (t : List Record) (c : String) (m : NormMethod) :
    Except EngineError (List Record) :=
  if !(specSchemaColumns t).contains c then
    .error (.validation "column not found")
  else
    let xs := numsAt t c
    if xs.isEmpty then .error (.validation "column has no numeric values")
    else .ok (t.map (scaleRecordCol c (scaler m xs)))

/-- Modelled from the spec: `normalize(table, columns, method)`
(spec section 4.3) — the listed columns rescaled one after the other; the
columns are distinct, so each column's statistics see the original
values. -/
def normalizeTable (t : List Record) (cols : List String) (m : NormMethod) :
    Except EngineError (List Record) :=
  cols.foldlM (fun acc c => normalizeCol acc c m) t

/-- Modelled from the spec: the distinct values of one column in first-seen
order (spec section 4.4). -/
def firstSeenVals (c : String) (t : List Record) : List Value :=
  t.foldl (fun acc r => if getVal r c ∈ acc then acc else acc ++ [getVal r c]) []

/-- Modelled from the spec: `pivot(table, index, pivot_columns, values,
aggfunc)` (spec section 4.4) — one row per distinct index value in
first-seen order, the index column first, then one column per distinct
pivot value in first-seen order; a cell is the `aggfunc` reduction of the
`values` column over the matching records, null when the combination never
occurs.  Fails when any referenced column exists in no record. -/
def pivotTable (t : List Record) (idx pcol vals : String) (s : Stat) :
    Except EngineError (List Record) :=
  let cols := specSchemaColumns t
  if !(cols.contains idx && cols.contains pcol && cols.contains vals) then
    .error (.validation "pivot column not found")
  else
    .ok ((firstSeenVals idx t).map (fun iv =>
      (idx, iv) :: (firstSeenVals pcol t).map (fun pv =>
        let bucket := t.filter (fun r => getVal r idx == iv && getVal r pcol == pv)
        (jsString pv, if bucket.isEmpty then Value.null else aggCell bucket vals s))))

/-- Modelled from the spec: the transformation tags
(spec section 3 and `transformation_type` in `types/index.ts`). -/
inductive TType where
  | aggregate
  | filter
  | normalize
  | pivot
deriving DecidableEq

/-- Typed request parameters (`TransformationParameters` in
`types/index.ts`): every field optional, each transformation reading its
own.  A single filter condition is carried as a one-element list (the wire
shape admits one condition or a sequence). -/
structure Params where
  group_by : Option (List String) := none
  aggregations : Option (List (String × Stat)) := none
  conditions : Option (List Condition) := none
  columns : Option (List String) := none
  method : Option NormMethod := none
  index : Option String := none
  pivot_columns : Option String := none
  values : Option String := none
  aggfunc : Option Stat := none
deriving DecidableEq

/-- A transformation request (`TransformationRequest` in `types/index.ts`
and spec section 3). -/
structure TransformationRequest where
  data : List Record
  transformation_type : TType
  parameters : Params
deriving DecidableEq

/-- Modelled from the spec: the result envelope the Dispatcher assembles —
the output table with the row-count metadata (spec sections 3 and 4.5).
Wall-clock processing time is real time and outside the model. -/
structure TransformationResult where
  data : List Record
  original_rows : Nat
  transformed_rows : Nat
deriving DecidableEq

/-- Modelled from the spec: parameter validation and routing of one request
to its component (spec section 4.5).  A missing required key is a
`ValidationError`; `pivot`'s `aggfunc` defaults to `sum` and `normalize`'s
`method` to `min_max`. -/
def route (req : TransformationRequest) : Except EngineError (List Record) :=
  match req.transformation_type with
  | .aggregate =>
      match req.parameters.group_by, req.parameters.aggregations with
      | some gb, some aggs => aggregate req.data gb aggs
      | _, _ => .error (.validation "aggregate parameters missing")
  | .filter =>
      match req.parameters.conditions with
      | some cs => .ok (specFilterTable req.data cs)
      | none => .error (.validation "filter conditions missing")
  | .normalize =>
      match req.parameters.columns with
      | some cols =>
          normalizeTable req.data cols (req.parameters.method.getD .min_max)
      | none => .error (.validation "normalize columns missing")
  | .pivot =>
      match req.parameters.index, req.parameters.pivot_columns, req.parameters.values with
      | some idx, some pcol, some vals =>
          pivotTable req.data idx pcol vals (req.parameters.aggfunc.getD .sum)
      | _, _, _ => .error (.validation "pivot parameters missing")

/-- Modelled from the spec: `execute(request)` — an empty input table short
circuits to an empty result with zeroed metadata; otherwise the routed
component's table is wrapped with `original_rows` the request's row count
and `transformed_rows` the output's row count (spec section 4.5). -/
def execute (req : TransformationRequest) : Except EngineError TransformationResult :=
  if req.data.isEmpty then
    .ok { data := [], original_rows := 0, transformed_rows := 0 }
  else
    (route req).map (fun table =>
      { data := table, original_rows := req.data.length, transformed_rows := table.length })

/-- Modelled from the spec: one slot of a batch result — the item's own
success or its own error (spec section 4.6). -/
inductive BatchEntry where
  | success : TransformationResult → BatchEntry
  | failure : EngineError → BatchEntry
deriving DecidableEq

/-- Modelled from the spec: one batch item processed independently through
the Dispatcher, its failure captured in place (spec section 4.6). -/
def runOne (req : TransformationRequest) : BatchEntry :=
  match execute req with
  | .ok res => .success res
  | .error e => .failure e

/-- Modelled from the spec: `batch_execute(requests[])` — every request
processed independently, results in input order (spec section 4.6). -/
def batchExecute (reqs : List TransformationRequest) : List BatchEntry :=
  reqs.map runOne

/-- The arguments `App` passes to `MetadataPanel` when transformed data is
present (`App.tsx`): empty metadata, zero processing time, and the lengths
of the original and transformed data as the two record counts. -/
structure MetadataPanelCall where
  metadata : List (String × Value)
  processingTimeMs : Rat
  originalCount : Nat
  transformedCount : Nat
deriving DecidableEq

/-- The concrete `MetadataPanel` invocation in `App.tsx`. -/
def appMetadataPanelCall (originalData transformedData : List Record) : MetadataPanelCall :=
  { metadata := []
    processingTimeMs := 0
    originalCount := originalData.length
    transformedCount := transformedData.length }

/-! ## Concrete tables and requests from the spec's calibration scenarios -/

/-- The four-row sales table of the spec's Scenario 1 and of the README's
aggregate example. -/
def tableScenario1 : List Record :=
  [[("region", .str "North"), ("sales", .num 100)],
   [("region", .str "North"), ("sales", .num 150)],
   [("region", .str "South"), ("sales", .num 200)],
   [("region", .str "South"), ("sales", .num 120)]]

/-- The expected aggregate output of Scenario 1. -/
def aggScenario1Out : List Record :=
  [[("region", .str "North"), ("sales", .num 250)],
   [("region", .str "South"), ("sales", .num 320)]]

/-- A Scenario-1 aggregate request through the Dispatcher. -/
def reqScenario1 : TransformationRequest :=
  { data := tableScenario1
    transformation_type := .aggregate
    parameters := { group_by := some ["region"], aggregations := some [("sales", .sum)] } }

/-- The Dispatcher's result for `reqScenario1`. -/
def resScenario1 : TransformationResult :=
  { data := aggScenario1Out, original_rows := 4, transformed_rows := 2 }

/-- The single-column table `[10, 20, 30]` of the spec's Scenario 3. -/
def tableScenario3 : List Record :=
  [[("v", .num 10)], [("v", .num 20)], [("v", .num 30)]]

/-- The expected min-max normalization of Scenario 3: `[0, 0.5, 1]`. -/
def normScenario3Out : List Record :=
  [[("v", .num 0)], [("v", .num (1 / 2))], [("v", .num 1)]]

/-- A two-record table whose records carry different column sets: the second
record has a column `b` that the first record lacks. -/
def tableHet : List Record :=
  [[("a", .num 1)], [("a", .num 1), ("b", .num 2)]]

/-- A record whose `name` field is the mixed-case string `"Alice"`. -/
def aliceRecord : Record := [("name", .str "Alice")]

/-- A client `contains` filter whose text is the upper-case `"ALICE"`. -/
def aliceFilter : FilterConfig := { column := "name", value := "ALICE", operator := .contains }

/-- Dashboard parameters in which `pivot_columns` is set to the empty
string — the state the pivot panel's placeholder option produces. -/
def emptyPivotParams : Record := [("pivot_columns", .str "")]

/-- Dashboard parameters of a configured pivot: `pivot_columns` holds the
non-empty string `"product"`. -/
def productPivotParams : Record :=
  [("index", .str "region"), ("pivot_columns", .str "product")]

/-! ## Helper lemmas -/

theorem startsWithL_iff (n h : List Char) :
    startsWithL n h = true ↔ ∃ rest, h = n ++ rest := by
  induction n generalizing h with
  | nil => simp [startsWithL]
  | cons a as ih =>
    cases h with
    | nil =>
      simp [startsWithL]
    | cons b bs =>
      simp only [startsWithL, Bool.and_eq_true, beq_iff_eq, ih, List.cons_append, List.cons.injEq]
      constructor
      · rintro ⟨rfl, rest, rfl⟩
        exact ⟨rest, rfl, rfl⟩
      · rintro ⟨rest, rfl, rfl⟩
        exact ⟨rfl, rest, rfl⟩

theorem includesL_iff (n h : List Char) :
    includesL n h = true ↔ ∃ pre post, h = pre ++ n ++ post := by
  induction h with
  | nil =>
    simp only [includesL, startsWithL_iff]
    constructor
    · rintro ⟨rest, hr⟩
      exact ⟨[], rest, by simpa using hr⟩
    · rintro ⟨pre, post, hr⟩
      exact ⟨pre ++ post, by rw [hr]; cases pre <;> simp_all⟩
  | cons c cs ih =>
    simp only [includesL, Bool.or_eq_true, startsWithL_iff, ih]
    constructor
    · rintro (⟨rest, hr⟩ | ⟨pre, post, hr⟩)
      · exact ⟨[], rest, by simpa using hr⟩
      · exact ⟨c :: pre, post, by simp [hr]⟩
    · rintro ⟨pre, post, hr⟩
      cases pre with
      | nil => exact Or.inl ⟨post, by simpa using hr⟩
      | cons p ps =>
        refine Or.inr ⟨ps, post, ?_⟩
        have := (List.cons.injEq .. ▸ hr).2
        simpa using this

theorem lookupField_jsDelete_self (k : String) (o : Record) :
    lookupField (jsDelete k o) k = none := by
  induction o with
  | nil => rfl
  | cons p rest ih =>
    obtain ⟨a, b⟩ := p
    by_cases h : a = k <;> simp_all [jsDelete, lookupField, List.filter_cons]

theorem lookupField_jsDelete_ne (k k' : String) (o : Record) (h : k' ≠ k) :
    lookupField (jsDelete k o) k' = lookupField o k' := by
  induction o with
  | nil => rfl
  | cons p rest ih =>
    obtain ⟨a, b⟩ := p
    by_cases hp : a = k
    · have hne : ¬ a = k' := fun hc => h (hc ▸ hp)
      simp_all [jsDelete, lookupField, List.filter_cons]
    · by_cases hk : a = k' <;> simp_all [jsDelete, lookupField, List.filter_cons]

theorem lookupField_scaleRecordCol (c : String) (f : Rat → Rat) (r : Record) :
    lookupField (scaleRecordCol c f r) c = (lookupField r c).map (mapNum f) := by
  induction r with
  | nil => rfl
  | cons p rest ih =>
    obtain ⟨a, b⟩ := p
    by_cases ha : a = c <;> simp [scaleRecordCol, lookupField, ha, ih]

/-! ## Claim theorems -/

/-- C1.  For every table and every list of filter conditions, the
client-side filter `filteredAndSortedData` returns a subsequence of its
input — so its length is at most the input's length and relative order is
preserved — and every returned record satisfies every condition in the
list (AND composition via `filters.every`). -/
theorem c1_filter_subsequence :
    ∀ (sorted : List Record) (filters : List FilterConfig),
      (filteredAndSortedData sorted filters).Sublist sorted ∧
      (filteredAndSortedData sorted filters).length ≤ sorted.length ∧
      ∀ r ∈ filteredAndSortedData sorted filters, ∀ f ∈ filters, matchesFilter r f = true := by
  intro sorted filters
  by_cases h : filters.isEmpty
  · have he : filters = [] := List.isEmpty_iff.mp h
    subst he
    refine ⟨?_, ?_, ?_⟩
    · simp [filteredAndSortedData]
    · simp [filteredAndSortedData]
    · intro r _ f hf
      simp at hf
  · have hd : filteredAndSortedData sorted filters =
      sorted.filter (fun record => filters.all (fun filter => matchesFilter record filter)) := by
        simp [filteredAndSortedData, h]
    rw [hd]
    refine ⟨List.filter_sublist _, (List.filter_sublist _).length_le, ?_⟩
    intro r hr f hf
    have hall := List.of_mem_filter hr
    exact List.all_eq_true.mp hall f hf

/-- Witness for C1 at a concrete table and filter list. -/
theorem c1_filter_subsequence_witness :
    matchesFilter [("age", Value.num 35)] { column := "age", value := "30", operator := .greater } = true :=
  (c1_filter_subsequence [[("age", Value.num 35)], [("age", Value.num 25)]]
      [{ column := "age", value := "30", operator := .greater }]).2.2
    [("age", Value.num 35)] (by decide)
    { column := "age", value := "30", operator := .greater } (by decide)

/-- C10.  For every transformed-data list and every sort configuration, the
client-side `sortedData` is a permutation of the transformed data — the
same records with the same multiplicity, none added or dropped — and with
no sort configured it is exactly the transformed data, unchanged. -/
theorem c10_sorted_perm :
    ∀ (transformedData : List Record) (sortConfig : Option SortConfig),
      (sortedData transformedData sortConfig).Perm transformedData ∧
      sortedData transformedData none = transformedData := by
  intro t cfg
  refine ⟨?_, rfl⟩
  cases cfg with
  | none => exact List.Perm.refl t
  | some c => exact List.mergeSort_perm t _

/-- C2.  For every transformation request the Dispatcher accepts, the
result's metadata satisfies `transformed_rows = len(result.data)` and
`original_rows = len(request.data)`; and in the code present, the counts
`App` passes to `MetadataPanel` are exactly `originalData.length` and
`transformedData.length`. -/
theorem c2_rowcount_metadata :
    (∀ (req : TransformationRequest) (res : TransformationResult),
        execute req = .ok res →
        res.transformed_rows = res.data.length ∧ res.original_rows = req.data.length) ∧
    (∀ originalData transformedData : List Record,
        (appMetadataPanelCall originalData transformedData).originalCount = originalData.length ∧
        (appMetadataPanelCall originalData transformedData).transformedCount = transformedData.length) := by
  constructor
  · intro req res h
    unfold execute at h
    by_cases hd : req.data.isEmpty
    · rw [if_pos hd] at h
      cases h
      refine ⟨rfl, ?_⟩
      have : req.data = [] := List.isEmpty_iff.mp hd
      simp [this]
    · rw [if_neg hd] at h
      cases hroute : route req with
      | error e =>
        rw [hroute] at h
        simp [Except.map] at h
      | ok table =>
        rw [hroute] at h
        simp only [Except.map, Except.ok.injEq] at h
        subst h
        exact ⟨rfl, rfl⟩
  · intro o t
    exact ⟨rfl, rfl⟩

/-- Witness for C2 at the Scenario-1 aggregate request. -/
theorem c2_rowcount_metadata_witness :
    resScenario1.transformed_rows = resScenario1.data.length ∧
    resScenario1.original_rows = reqScenario1.data.length :=
  c2_rowcount_metadata.1 reqScenario1 resScenario1 (by rfl)

/-- C3.  Aggregating the Scenario-1 sales table with `group_by = ["region"]`
and `aggregations = {sales: sum}` yields exactly
`[{region: North, sales: 250}, {region: South, sales: 320}]`, and the
output rows follow the first-seen order of the distinct group-key tuples
(North before South). -/
theorem c3_aggregate_scenario :
    aggregate tableScenario1 ["region"] [("sales", Stat.sum)] = .ok aggScenario1Out ∧
    firstSeenKeys ["region"] tableScenario1 = [[Value.str "North"], [Value.str "South"]] := by
  exact ⟨rfl, by decide⟩

/-- C8.  For every list of transformation requests, batch execution returns
one entry per request in input order, and the entry at each index is a
function of that index's request alone — so one request's validation or
computation failure cannot change any other entry, which appears as the
failed item's own error entry at its index. -/
theorem c8_batch_independent :
    ∀ (reqs : List TransformationRequest),
      (batchExecute reqs).length = reqs.length ∧
      ∀ i : Nat, (batchExecute reqs)[i]? = (reqs[i]?).map runOne := by
  intro reqs
  exact ⟨List.length_map reqs runOne, fun i => List.getElem?_map runOne reqs i⟩

/-- C4.  For every table and column, accepted min-max normalization maps
every numeric cell `x` of that column to `(x - min) / (max - min)` with the
minimum and maximum taken over the column's non-null numeric values, and to
0 when the maximum equals the minimum; in particular normalizing the column
`[10, 20, 30]` yields `[0, 0.5, 1]`. -/
theorem c4_minmax_formula :
    (∀ (t : List Record) (c : String) (t' : List Record),
        normalizeCol t c .min_max = .ok t' →
        ∀ (i : Nat) (x : Rat),
          (t.map (fun r => getVal r c))[i]? = some (.num x) →
          (t'.map (fun r => getVal r c))[i]? =
            some (.num
              (if (listMaxQ (numsAt t c)).getD 0 = (listMinQ (numsAt t c)).getD 0 then 0
               else (x - (listMinQ (numsAt t c)).getD 0) /
                    ((listMaxQ (numsAt t c)).getD 0 - (listMinQ (numsAt t c)).getD 0)))) ∧
    normalizeCol tableScenario3 "v" .min_max = .ok normScenario3Out := by
  constructor
  · intro t c t' h i x hx
    by_cases hcont : c ∈ specSchemaColumns t
    case neg => simp [normalizeCol, hcont] at h
    case pos =>
      by_cases hempty : numsAt t c = []
      case pos => simp [normalizeCol, hcont, hempty] at h
      case neg =>
        simp [normalizeCol, hcont, hempty] at h
        subst h
        rw [List.map_map]
        rw [List.getElem?_map] at hx ⊢
        cases ht : t[i]? with
        | none => rw [ht] at hx; simp at hx
        | some r =>
          rw [ht] at hx
          simp only [Option.map_some'] at hx ⊢
          have hlook : lookupField r c = some (.num x) := by
            unfold getVal at hx
            cases hl : lookupField r c with
            | none => rw [hl] at hx; simp at hx
            | some v => rw [hl] at hx; simp at hx; rw [hx]
          have hmap :
              lookupField (scaleRecordCol c (scaler .min_max (numsAt t c)) r) c =
                some (mapNum (scaler .min_max (numsAt t c)) (.num x)) := by
            rw [lookupField_scaleRecordCol, hlook]
            rfl
          simp only [Function.comp_apply, getVal]
          rw [hmap]
          simp [mapNum, scaler]
  · rfl

/-- Witness for C4 at the Scenario-3 column, position 1 (value 20). -/
theorem c4_minmax_formula_witness :
    (normScenario3Out.map (fun r => getVal r "v"))[1]? =
      some (.num
        (if (listMaxQ (numsAt tableScenario3 "v")).getD 0 =
            (listMinQ (numsAt tableScenario3 "v")).getD 0 then 0
         else ((20 : Rat) - (listMinQ (numsAt tableScenario3 "v")).getD 0) /
              ((listMaxQ (numsAt tableScenario3 "v")).getD 0 -
               (listMinQ (numsAt tableScenario3 "v")).getD 0))) :=
  c4_minmax_formula.1 tableScenario3 "v" normScenario3Out (by rfl) 1 20 (by decide)

theorem mem_schemaFold (t : List Record) (acc : List String) (a : String) (h : a ∈ acc) :
    a ∈ t.foldl
      (fun acc r => acc ++ ((r.map (fun p => p.1)).filter (fun k => !acc.contains k))) acc := by
  induction t generalizing acc with
  | nil => simpa using h
  | cons r rest ih => exact ih _ (List.mem_append_left _ h)

/-- C5 counterexample: on a table whose second record has a column the
first record lacks, the code's derived schema is not the set of column
names appearing anywhere in the table. -/
theorem c5_schema_counterexample :
    availableColumns tableHet = ["a"] ∧
    specSchemaColumns tableHet = ["a", "b"] ∧
    availableColumns tableHet ≠ specSchemaColumns tableHet := by
  refine ⟨rfl, by decide, by decide⟩

/-- C5 amended.  The code derives the schema from the first record only:
`availableColumns` is the list of the first record's column names and
`numericColumns` the sublist of those whose value in the first record is
numeric; this first-record schema is always contained in — but in general
differs from — the set of column names appearing anywhere in the table. -/
theorem c5_firstRecord_schema :
    ∀ (r : Record) (rest : List Record),
      availableColumns (r :: rest) = r.map (fun p => p.1) ∧
      numericColumns (r :: rest) = (r.map (fun p => p.1)).filter (fun k => isNumField r k) ∧
      availableColumns (r :: rest) ⊆ specSchemaColumns (r :: rest) := by
  intro r rest
  refine ⟨rfl, rfl, ?_⟩
  intro a ha
  unfold specSchemaColumns
  rw [List.foldl_cons]
  refine mem_schemaFold rest _ a ?_
  simpa [availableColumns] using ha

/-- Witness for C5's amended subset claim on the heterogeneous table. -/
theorem c5_firstRecord_schema_witness :
    "a" ∈ specSchemaColumns ([("a", Value.num 1)] :: [[("a", Value.num 1), ("b", Value.num 2)]]) :=
  (c5_firstRecord_schema [("a", Value.num 1)] [[("a", Value.num 1), ("b", Value.num 2)]]).2.2
    (by decide)

/-- C6.  For every record and ordering condition — `greater` / `less` in
the client filter, `gt` / `gte` / `lt` / `lte` in the engine — a
non-numeric field value or a non-numeric condition value makes the
condition evaluate to false; evaluation is a total function, so it never
raises. -/
theorem c6_ordering_nonnumeric_false :
    (∀ (record : Record) (filter : FilterConfig),
        (filter.operator = .greater ∨ filter.operator = .less) →
        isNumField record filter.column = false →
        matchesFilter record filter = false) ∧
    (∀ (record : Record) (filter : FilterConfig),
        (filter.operator = .greater ∨ filter.operator = .less) →
        parseFloat filter.value = none →
        matchesFilter record filter = false) ∧
    (∀ (r : Record) (c : Condition),
        (c.op = .gt ∨ c.op = .gte ∨ c.op = .lt ∨ c.op = .lte) →
        (toNum (getVal r c.field) = none ∨ condNum c.value = none) →
        specMatches r c = false) := by
  refine ⟨?_, ?_, ?_⟩
  · rintro record ⟨col, v, op⟩ hop hnum
    rcases hop with rfl | rfl <;>
    · simp only [matchesFilter]
      cases hl : lookupField record col with
      | none => simp [hl]
      | some w =>
        cases w with
        | num q => simp [isNumField, hl] at hnum
        | str s => simp [hl]
        | bool b => simp [hl]
        | null => simp [hl]
  · rintro record ⟨col, v, op⟩ hop hpf
    rcases hop with rfl | rfl <;>
    · simp only [matchesFilter]
      cases hl : lookupField record col with
      | none => simp [hl, hpf]
      | some w => cases w <;> simp [hl, hpf]
  · rintro r ⟨fld, op, cv⟩ hop hnn
    rcases hop with rfl | rfl | rfl | rfl <;>
      rcases hnn with hnn | hnn <;>
      · simp only [specMatches] at hnn ⊢
        cases hv : toNum (getVal r fld) <;> simp_all

/-- Witness for C6 at concrete records and conditions. -/
theorem c6_ordering_nonnumeric_false_witness :
    matchesFilter [("age", Value.str "x")] { column := "age", value := "30", operator := .greater } = false ∧
    matchesFilter [("age", Value.num 35)] { column := "age", value := "abc", operator := .less } = false ∧
    specMatches [("age", Value.str "x")] { field := "age", op := .gt, value := .scalar (Value.num 30) } = false :=
  ⟨c6_ordering_nonnumeric_false.1 [("age", Value.str "x")]
      { column := "age", value := "30", operator := .greater } (Or.inl rfl) (by decide),
   c6_ordering_nonnumeric_false.2.1 [("age", Value.num 35)]
      { column := "age", value := "abc", operator := .less } (Or.inr rfl) (by decide),
   c6_ordering_nonnumeric_false.2.2 [("age", Value.str "x")]
      { field := "age", op := .gt, value := .scalar (Value.num 30) } (Or.inl rfl)
      (Or.inl (by decide))⟩

/-- C7 counterexample: the client `contains` filter is not case-sensitive.
On the record `{name: "Alice"}` and filter text `"ALICE"` the code matches,
while a case-sensitive substring test of the string representations does
not. -/
theorem c7_contains_counterexample :
    matchesFilter aliceRecord aliceFilter = true ∧
    specCaseSensitiveContains aliceRecord aliceFilter = false := by
  exact ⟨by decide, by decide⟩

/-- C7 amended.  A `contains` filter is true exactly when the lowercased
string representation of the condition value occurs as a substring of the
lowercased string representation of the field value — a case-insensitive
comparison, both sides being lowercased before the substring test. -/
theorem c7_contains_case_insensitive :
    ∀ (record : Record) (filter : FilterConfig),
      filter.operator = .contains →
      (matchesFilter record filter = true ↔
        ∃ pre post : List Char,
          (toLowerStr (jsStringU (lookupField record filter.column))).toList =
            pre ++ (toLowerStr filter.value).toList ++ post) := by
  rintro record ⟨col, v, op⟩ hop
  cases hop
  simp only [matchesFilter, strIncludes]
  exact includesL_iff _ _

/-- Witness for C7's amended claim: `"lic"` matches `"Alice"` through the
case-insensitive decomposition `"alice" = "a" ++ "lic" ++ "e"`. -/
theorem c7_contains_case_insensitive_witness :
    matchesFilter aliceRecord { column := "name", value := "lic", operator := .contains } = true :=
  (c7_contains_case_insensitive aliceRecord
      { column := "name", value := "lic", operator := .contains } rfl).mpr
    ⟨['a'], ['e'], by decide⟩

/-- C9 counterexample: with `pivot_columns` set to the empty string — a
set but falsy value, reachable from the pivot panel's placeholder option —
the posted parameters still carry `pivot_columns` and gain no `columns`
key. -/
theorem c9_pivot_columns_counterexample :
    lookupField emptyPivotParams "pivot_columns" = some (Value.str "") ∧
    apiParameters emptyPivotParams = emptyPivotParams ∧
    lookupField (apiParameters emptyPivotParams) "pivot_columns" = some (Value.str "") ∧
    lookupField (apiParameters emptyPivotParams) "columns" = none := by
  exact ⟨rfl, rfl, rfl, rfl⟩

/-- C9 amended.  Whenever the dashboard parameters hold a truthy
`pivot_columns` value — a non-empty string — the parameters App posts carry
that value under the key `columns` and no longer contain `pivot_columns`,
even though the declared request type names the field `pivot_columns`. -/
theorem c9_pivot_columns_rekeyed :
    ∀ (parameters : Record) (v : Value),
      lookupField parameters "pivot_columns" = some v →
      truthy v = true →
      lookupField (apiParameters parameters) "pivot_columns" = none ∧
      lookupField (apiParameters parameters) "columns" = some v := by
  intro o v hv ht
  simp only [apiParameters, hv, ht, if_true]
  constructor
  · exact lookupField_jsDelete_self _ _
  · rw [lookupField_jsDelete_ne _ _ _ (by decide)]
    simp [jsSet, lookupField]

/-- Witness for C9's amended claim at a configured pivot parameter
object. -/
theorem c9_pivot_columns_rekeyed_witness :
    lookupField (apiParameters productPivotParams) "pivot_columns" = none ∧
    lookupField (apiParameters productPivotParams) "columns" = some (Value.str "product") :=
  c9_pivot_columns_rekeyed productPivotParams (Value.str "product") (by decide) (by decide)

end Dashboard
